import Mathlib

/-!
Verification of the gaia concurrency/IO runtime specification against the source.

The developments below shallowly embed the four source files that the claims
concern:

* `ClientChannel` — `src/util/asio/client_channel.cc`
* `AcceptServer`  — `src/util/asio/accept_server.cc`
* `FiberQueueTP`  — `src/util/fibers/fiberqueue_threadpool.cc`
* `GcsRead`       — `src/util/gce/gcs_read_file.cc`

Pure control flow is translated into Lean functions; the cooperative-fiber
protocols (reconnect lifecycle, accept-server drain) are translated into step
relations whose constructors correspond to the atomic (yield-free) code blocks
of the source, and invariants are proved by induction over reachability.
-/

namespace ClientChannel

/-- Error-code values relevant to the client channel, mirroring
`boost::system::error_code` truthiness: `ok` is the zero (falsy) code. -/
inductive EC where
  | ok
  | opAborted
  | other (n : Nat)
deriving DecidableEq, Repr

/-- Truthiness of a boost error code: nonzero codes are errors. -/
def EC.isErr : EC → Bool
  | EC.ok => false
  | _ => true

/-- Shared state of a `ClientChannelImpl` relevant to the reconnect protocol:
`shutting_down_`, `reconnect_active_`, the truthiness of `status_`,
the number of currently running reconnect fibers, and whether a `Shutdown`
call has returned. -/
structure CCState where
  sd : Bool
  ra : Bool
  stErr : Bool
  fibers : Nat
  shutdownDone : Bool
deriving DecidableEq, Repr

/-- Initial state: a freshly constructed, disconnected channel with no
reconnect fiber running. -/
def CCState.init : CCState :=
  { sd := false, ra := false, stErr := true, fibers := 0, shutdownDone := false }

/-- One atomic step of the cooperative execution of `client_channel.cc`.
Each constructor is a yield-free block of the source:

* `handleError` — `HandleErrorStatus` (lines 155-166): returns early when
  `shutting_down_ || reconnect_active_`; otherwise sets `reconnect_active_`
  and spawns the reconnect fiber via `ReconnectAsync`.
* `fiberRearm` — `ReconnectFiber` (lines 137-140): when not shutting down and
  `status_` is still an error, the fiber calls `ReconnectAsync` (spawning its
  successor) and returns, leaving `reconnect_active_` set; the running-fiber
  count is unchanged.
* `fiberClear` — `ReconnectFiber` (lines 142-152): otherwise the fiber clears
  `reconnect_active_` under `shd_mu_` (notifying `shd_cnd_` when shutting
  down) and returns.
* `statusSet` — `ResolveAndConnect` / the socket layer updating `status_`.
* `shutdownBegin` — `Shutdown` (lines 111-126) sets `shutting_down_`.
* `shutdownRet` — `Shutdown` (lines 127-128) returns once the condvar
  predicate `!reconnect_active_` holds. -/
inductive CCStep : CCState → CCState → Prop where
  | handleError {s : CCState} (hsd : s.sd = false) (hra : s.ra = false) :
      CCStep s { s with ra := true, fibers := s.fibers + 1 }
  | fiberRearm {s : CCState} (hf : 1 ≤ s.fibers) (hsd : s.sd = false)
      (herr : s.stErr = true) : CCStep s s
  | fiberClear {s : CCState} (hf : 1 ≤ s.fibers)
      (hc : s.sd = true ∨ s.stErr = false) :
      CCStep s { s with ra := false, fibers := s.fibers - 1 }
  | statusSet {s : CCState} (b : Bool) : CCStep s { s with stErr := b }
  | shutdownBegin {s : CCState} : CCStep s { s with sd := true }
  | shutdownRet {s : CCState} (hsd : s.sd = true) (hra : s.ra = false) :
      CCStep s { s with shutdownDone := true }

/-- States of the channel reachable from the initial state. -/
inductive CCReach : CCState → Prop where
  | init : CCReach CCState.init
  | step {s t : CCState} : CCReach s → CCStep s t → CCReach t

/-- The single-reconnect invariant: at most one reconnect fiber runs,
`reconnect_active_` holds exactly when one does, and a returned `Shutdown`
implies the channel is shutting down with no reconnect fiber left. -/
def CCInv (s : CCState) : Prop :=
  s.fibers ≤ 1 ∧ (s.ra = true ↔ s.fibers = 1) ∧
    (s.shutdownDone = true → s.sd = true ∧ s.fibers = 0)

/-- Claim C1: at any time at most one reconnect fiber of a `ClientChannel` is
active, and `reconnect_active_` is true iff exactly one reconnect fiber is
running; `HandleErrorStatus` spawns a fiber only when neither `shutting_down_`
nor `reconnect_active_` holds, and `Shutdown` returns only after
`reconnect_active_` has become false — hence with zero reconnect fibers. -/
theorem claim1_single_reconnect_invariant (s : CCState) (h : CCReach s) :
    CCInv s := by
  induction h with
  | init => simp [CCInv, CCState.init]
  | @step u t hr hst ih =>
    obtain ⟨h1, h2, h3⟩ := ih
    cases hst with
    | handleError hsd hra =>
      have hf0 : u.fibers = 0 := by
        have hne : ¬ u.fibers = 1 := fun hf => by simp [h2.mpr hf] at hra
        omega
      exact ⟨by simp [hf0], by simp [hf0],
        fun hd => absurd (h3 hd).1 (by simp [hsd])⟩
    | fiberRearm hf hsd herr => exact ⟨h1, h2, h3⟩
    | fiberClear hf hc =>
      have hf1 : u.fibers = 1 := by omega
      exact ⟨by simp [hf1], by simp [hf1],
        fun hd => absurd (h3 hd).2 (by omega)⟩
    | statusSet b => exact ⟨h1, h2, h3⟩
    | shutdownBegin => exact ⟨h1, h2, fun hd => ⟨rfl, (h3 hd).2⟩⟩
    | shutdownRet hsd hra =>
      refine ⟨h1, h2, fun _ => ⟨hsd, ?_⟩⟩
      have hne : ¬ u.fibers = 1 := fun hf => by simp [h2.mpr hf] at hra
      show u.fibers = 0
      omega

/-- Witness for claim C1: the invariant holds at the concrete reachable state
produced by a `HandleErrorStatus` call on the initial channel state. -/
theorem claim1_single_reconnect_invariant_witness :
    CCInv { sd := false, ra := true, stErr := true, fibers := 1,
            shutdownDone := false } :=
  claim1_single_reconnect_invariant _
    (CCReach.step CCReach.init (CCStep.handleError rfl rfl))

/-- Observable actions of one run of `ClientChannelImpl::ReconnectFiber`
(client_channel.cc lines 131-153): the nice level it sets, the connect deadline
it passes to `ResolveAndConnect` in milliseconds from the fiber's start, and
the actions taken after `ResolveAndConnect` returns, as a function of
`shutting_down_` and the truthiness of `status_` observed at that point. -/
structure ReconnectRun where
  niceLevel : Nat
  deadlineMs : Nat
  rearms : Bool
  clearsRA : Bool
  notifies : Bool
deriving DecidableEq, Repr

/-- Translation of `ClientChannelImpl::ReconnectFiber`: it sets nice level 4,
calls `ResolveAndConnect(steady_clock::now() + 30s)`, and then either re-arms
itself via `ReconnectAsync` (when not shutting down and still in error) or
clears `reconnect_active_`, notifying `shd_cnd_` when shutting down. -/
def reconnectFiber (sd stErr : Bool) : ReconnectRun :=
  { niceLevel := 4
    deadlineMs := 30000
    rearms := !sd && stErr
    clearsRA := !(!sd && stErr)
    notifies := !(!sd && stErr) && sd }

/-- Claim C7: the reconnect fiber attempts `ResolveAndConnect` with a deadline
exactly 30 seconds from its start and a nice level greater than 0; if it
finishes with the channel still disconnected and not shutting down, it spawns
a new reconnect attempt without clearing `reconnect_active_`; otherwise it
clears `reconnect_active_` and, exactly when shutting down, signals the
condvar that `Shutdown` waits on. -/
theorem claim7_reconnect_fiber_policy (sd stErr : Bool) :
    0 < (reconnectFiber sd stErr).niceLevel ∧
    (reconnectFiber sd stErr).deadlineMs = 30000 ∧
    (sd = false → stErr = true →
      (reconnectFiber sd stErr).rearms = true ∧
      (reconnectFiber sd stErr).clearsRA = false) ∧
    (sd = true ∨ stErr = false →
      (reconnectFiber sd stErr).rearms = false ∧
      (reconnectFiber sd stErr).clearsRA = true ∧
      ((reconnectFiber sd stErr).notifies = true ↔ sd = true)) := by
  cases sd <;> cases stErr <;> decide

/-- Witness for claim C7: concrete evaluations at both branch outcomes. -/
theorem claim7_reconnect_fiber_policy_witness :
    ((reconnectFiber false true).rearms = true ∧
      (reconnectFiber false true).clearsRA = false) ∧
    (reconnectFiber true true).notifies = true ∧
    0 < (reconnectFiber true false).niceLevel :=
  ⟨(claim7_reconnect_fiber_policy false true).2.2.1 rfl rfl,
    (((claim7_reconnect_fiber_policy true true).2.2.2 (Or.inl rfl)).2.2).mpr rfl,
    (claim7_reconnect_fiber_policy true false).1⟩

/-- Outcome of the entry of `ClientChannelImpl::Connect`
(client_channel.cc lines 23-29). -/
inductive ConnectOutcome where
  | checkAbort
  | immediateOk
  | postWork
deriving DecidableEq, Repr

/-- Translation of the entry of `ClientChannelImpl::Connect`: the
`CHECK(!shutting_down_ && !reconnect_active_)` aborts the process when either
flag holds; otherwise, if `status_` is already ok (`!status_`), it returns
`status_` (ok) immediately; otherwise it posts the resolve-and-connect work to
the reactor and spawns a fiber there. -/
def connectEntry (sd ra stErr : Bool) : ConnectOutcome :=
  if sd || ra then ConnectOutcome.checkAbort
  else if !stErr then ConnectOutcome.immediateOk
  else ConnectOutcome.postWork

/-- Claim C9: calling `Connect` while `shutting_down_` or `reconnect_active_`
holds aborts the process via the `CHECK`; and when `status_` is already ok,
`Connect` returns ok immediately without posting any work to the reactor or
spawning a fiber. -/
theorem claim9_connect_precondition (sd ra stErr : Bool) :
    ((sd = true ∨ ra = true) →
      connectEntry sd ra stErr = ConnectOutcome.checkAbort) ∧
    (sd = false → ra = false → stErr = false →
      connectEntry sd ra stErr = ConnectOutcome.immediateOk) := by
  cases sd <;> cases ra <;> cases stErr <;> decide

/-- Witness for claim C9: concrete evaluations of both conjuncts. -/
theorem claim9_connect_precondition_witness :
    connectEntry true false true = ConnectOutcome.checkAbort ∧
    connectEntry false false false = ConnectOutcome.immediateOk :=
  ⟨(claim9_connect_precondition true false true).1 (Or.inl rfl),
    (claim9_connect_precondition false false false).2 rfl rfl rfl⟩

/-- Outcome of one connection attempt inside the `ResolveAndConnect` loop
(client_channel.cc lines 76-95), as observed by the fiber:

* `resolveFail` — `Resolve` returned an error; no connect was attempted.
* `connOk` — `async_connect` completed successfully before the deadline timer,
  so `connect_cb` stored an ok `status_` and the routine returns connected.
* `connFail e` — `async_connect` completed with code `e`, cancelling the
  timer; `connect_cb` stored `e` into `status_`.
* `timerFirst` — the deadline timer fired first with `status_` still an
  error; the socket operation is cancelled and `connect_cb` then stores
  `operation_aborted`.

In each case `d` is the time in milliseconds the attempt took and `f` is
whether `Shutdown` flipped `shutting_down_` during the attempt. -/
inductive CAttempt where
  | resolveFail (d : Nat) (f : Bool)
  | connOk (d : Nat)
  | connFail (e : EC) (d : Nat) (f : Bool)
  | timerFirst (d : Nat) (f : Bool)

/-- Log of one backoff check at client_channel.cc lines 97-107: the clock and
`shutting_down_` value at the check, whether the abort branch of line 98 was
taken, and otherwise the sleep deadline (`sleep_until`) and the `sleep_dur`
in effect for that sleep. -/
structure IterLog where
  checkNow : Nat
  checkSd : Bool
  didAbort : Bool
  sleepTarget : Option Nat
  sleepDur : Option Nat
deriving DecidableEq, Repr

/-- How a run of `ResolveAndConnect` ended: connected, via the abort branch of
line 98, via the loop condition of line 73, or with the attempt oracle
exhausted while the loop would continue (a model artifact). -/
inductive RCOut where
  | connected
  | abortedRet
  | loopExit
  | fuelOut
deriving DecidableEq, Repr

/-- Effect of the attempt phase (client_channel.cc lines 76-95) on the clock,
`shutting_down_` and `status_`: `none` means the routine returned connected
(lines 90-93, `status_` ok); `some (now1, sd1, st1)` is the state at the
backoff check of line 97. A `connFail` whose code is ok is the same successful
connect observed through `connect_cb`.  `resolveFail` leaves `status_` as the
prior error; `timerFirst` ends with `status_ = operation_aborted` stored by
the cancelled connect's callback. -/
def attemptEffect (now : Nat) (sd : Bool) (st : EC) :
    CAttempt → Option (Nat × Bool × EC)
  | CAttempt.connOk _ => none
  | CAttempt.resolveFail d f => some (now + d, sd || f, st)
  | CAttempt.connFail e d f =>
      if e = EC.ok then none else some (now + d, sd || f, e)
  | CAttempt.timerFirst d f => some (now + d, sd || f, EC.opAborted)

/-- Log entry for an iteration that took the abort branch of line 98. -/
def abortLog (now1 : Nat) (sd1 : Bool) : IterLog :=
  { checkNow := now1, checkSd := sd1, didAbort := true,
    sleepTarget := none, sleepDur := none }

/-- Log entry for an iteration that slept (lines 103-107). -/
def sleepLog (now1 : Nat) (sd1 : Bool) (tgt dur : Nat) : IterLog :=
  { checkNow := now1, checkSd := sd1, didAbort := false,
    sleepTarget := some tgt, sleepDur := some dur }

/-- Translation of the loop of `ClientChannelImpl::ResolveAndConnect`
(client_channel.cc lines 73-108), driven by an oracle of attempt outcomes.
Arguments after the deadline `until_` are the clock `now`, `shutting_down_`,
`status_`, the current `sleep_dur` (all in milliseconds) and the oracle.
Each iteration re-checks the loop condition of line 73, runs the attempt,
then performs the check of lines 97-101 — on `shutting_down_ || now + 2ms >=
until` it stores `operation_aborted` and returns — and otherwise sleeps until
`min(now + sleep_dur, until - 2ms)` and bumps `sleep_dur` by 100ms below the
1s cap (lines 103-107).  Returns the log of backoff checks, how the run
ended, and the final `status_`. -/
def raRun (until_ : Nat) :
    Nat → Bool → EC → Nat → List CAttempt → List IterLog × RCOut × EC
  | now, sd, st, _, [] =>
      if sd = true ∨ st = EC.ok ∨ until_ ≤ now then ([], RCOut.loopExit, st)
      else ([], RCOut.fuelOut, st)
  | now, sd, st, dur, ev :: rest =>
      if sd = true ∨ st = EC.ok ∨ until_ ≤ now then ([], RCOut.loopExit, st)
      else
        match attemptEffect now sd st ev with
        | none => ([], RCOut.connected, EC.ok)
        | some (now1, sd1, st1) =>
            if sd1 = true ∨ until_ ≤ now1 + 2 then
              ([abortLog now1 sd1], RCOut.abortedRet, EC.opAborted)
            else
              let tgt := min (now1 + dur) (until_ - 2)
              let r := raRun until_ tgt sd1 st1
                (if dur < 1000 then dur + 100 else dur) rest
              (sleepLog now1 sd1 tgt dur :: r.1, r.2)

/-- Entry of `ResolveAndConnect` (line 54): `sleep_dur` starts at 100ms. -/
def resolveAndConnect (until_ now : Nat) (sd : Bool) (st : EC)
    (evs : List CAttempt) : List IterLog × RCOut × EC :=
  raRun until_ now sd st 100 evs

/-- The value taken by `sleep_dur` at the i-th backoff check of a run that
starts with `sleep_dur = 100`: it rises by 100ms per iteration and caps
at 1000ms. -/
def expectedDur (i : Nat) : Nat := min (100 * (i + 1)) 1000

theorem expectedDur_succ (j : Nat) :
    expectedDur (j + 1) =
      if expectedDur j < 1000 then expectedDur j + 100 else expectedDur j := by
  unfold expectedDur
  split <;> omega

/-- Specification of a `ResolveAndConnect` run whose `sleep_dur` entered with
the value of the j-th backoff iteration: every logged check aborted exactly
when `shutting_down_` held or `now + 2ms` had reached the deadline; an
aborting check is the last one, the run returns, and the final `status_` is
`operation_aborted`; and a non-aborting check slept with duration
`expectedDur` of its global iteration index, until
`min(now + sleep_dur, until - 2ms)`. -/
def RASpec (until_ j : Nat) (res : List IterLog × RCOut × EC) : Prop :=
  ∀ i, (h : i < res.1.length) →
    ((res.1.get ⟨i, h⟩).didAbort = true ↔
      ((res.1.get ⟨i, h⟩).checkSd = true ∨
        until_ ≤ (res.1.get ⟨i, h⟩).checkNow + 2)) ∧
    ((res.1.get ⟨i, h⟩).didAbort = true →
      i + 1 = res.1.length ∧ res.2.1 = RCOut.abortedRet ∧
        res.2.2 = EC.opAborted) ∧
    ((res.1.get ⟨i, h⟩).didAbort = false →
      (res.1.get ⟨i, h⟩).sleepDur = some (expectedDur (j + i)) ∧
      (res.1.get ⟨i, h⟩).sleepTarget =
        some (min ((res.1.get ⟨i, h⟩).checkNow + expectedDur (j + i))
          (until_ - 2)))

theorem RASpec_empty (until_ j : Nat) (out : RCOut) (st : EC) :
    RASpec until_ j (([], out, st)) := by
  intro i h
  simp at h

theorem RASpec_abort (until_ j now1 : Nat) (sd1 : Bool)
    (hcond : sd1 = true ∨ until_ ≤ now1 + 2) :
    RASpec until_ j
      (([abortLog now1 sd1], RCOut.abortedRet, EC.opAborted)) := by
  intro i h
  have hi : i = 0 := by
    simp at h
    omega
  subst hi
  refine ⟨iff_of_true rfl hcond, fun _ => ⟨rfl, rfl, rfl⟩, fun hfalse => ?_⟩
  simp [abortLog] at hfalse

theorem RASpec_sleep_cons (until_ j now1 : Nat) (sd1 : Bool) (tgt : Nat)
    (r : List IterLog × RCOut × EC)
    (hcond : ¬ (sd1 = true ∨ until_ ≤ now1 + 2))
    (htgt : tgt = min (now1 + expectedDur j) (until_ - 2))
    (hr : RASpec until_ (j + 1) r) :
    RASpec until_ j
      ((sleepLog now1 sd1 tgt (expectedDur j) :: r.1, r.2)) := by
  intro i h
  match i with
  | 0 =>
    refine ⟨iff_of_false (by simp [sleepLog]) hcond, ?_, ?_⟩
    · intro habs
      simp [sleepLog] at habs
    · intro _
      exact ⟨rfl, by simp [sleepLog, htgt]⟩
  | k + 1 =>
    have h' : k < r.1.length := by
      simp at h
      omega
    obtain ⟨c1, c2, c3⟩ := hr k h'
    refine ⟨c1, fun ha => ?_, fun hna => ?_⟩
    · obtain ⟨hl, ho, hs⟩ := c2 ha
      exact ⟨by simp [← hl], ho, hs⟩
    · obtain ⟨hd, ht⟩ := c3 hna
      have hidx : j + 1 + k = j + (k + 1) := by omega
      rw [hidx] at hd ht
      exact ⟨hd, ht⟩

theorem raRun_spec (until_ : Nat) (evs : List CAttempt) :
    ∀ (j now : Nat) (sd : Bool) (st : EC),
      RASpec until_ j (raRun until_ now sd st (expectedDur j) evs) := by
  induction evs with
  | nil =>
    intro j now sd st
    simp only [raRun]
    split
    · exact RASpec_empty until_ j RCOut.loopExit st
    · exact RASpec_empty until_ j RCOut.fuelOut st
  | cons ev rest ih =>
    intro j now sd st
    simp only [raRun]
    split
    · exact RASpec_empty until_ j RCOut.loopExit st
    · split
      · exact RASpec_empty until_ j RCOut.connected EC.ok
      next now1 sd1 st1 heq =>
        split
        next hc => exact RASpec_abort until_ j now1 sd1 hc
        next hc =>
          refine RASpec_sleep_cons until_ j now1 sd1 _ _ hc rfl ?_
          rw [← expectedDur_succ]
          exact ih (j + 1) (min (now1 + expectedDur j) (until_ - 2)) sd1 st1

/-- Claim C4: `ResolveAndConnect` follows the specified backoff algorithm —
the sleep duration starts at 100ms and increases by 100ms per iteration up to
a 1s cap; each sleep ends at `min(now + sleep_dur, until - 2ms)`; and
whenever `shutting_down_` holds or `now + 2ms >= until` after a failed
attempt, `status_` is set to `operation_aborted` and the routine returns
(the aborting check is the last log entry and the run ends `abortedRet`). -/
theorem claim4_backoff_schedule (until_ now : Nat) (sd : Bool) (st : EC)
    (evs : List CAttempt) :
    RASpec until_ 0 (resolveAndConnect until_ now sd st evs) := by
  have h100 : (100 : Nat) = expectedDur 0 := by simp [expectedDur]
  unfold resolveAndConnect
  rw [h100]
  exact raRun_spec until_ evs 0 now sd st

/-- Witness for claim C4: a concrete two-iteration run (one backoff sleep,
then a deadline abort); the first logged check slept for the initial 100ms
duration until the prescribed target. -/
theorem claim4_backoff_schedule_witness :
    ((resolveAndConnect 10000 0 false (EC.other 1)
        [CAttempt.resolveFail 50 false,
          CAttempt.timerFirst 9990 false]).1.get ⟨0, by decide⟩).sleepDur =
        some (expectedDur (0 + 0)) ∧
    ((resolveAndConnect 10000 0 false (EC.other 1)
        [CAttempt.resolveFail 50 false,
          CAttempt.timerFirst 9990 false]).1.get ⟨0, by decide⟩).sleepTarget =
        some (min (((resolveAndConnect 10000 0 false (EC.other 1)
          [CAttempt.resolveFail 50 false,
            CAttempt.timerFirst 9990 false]).1.get
              ⟨0, by decide⟩).checkNow + expectedDur (0 + 0)) (10000 - 2)) :=
  (claim4_backoff_schedule 10000 0 false (EC.other 1)
      [CAttempt.resolveFail 50 false, CAttempt.timerFirst 9990 false]
      0 (by decide)).2.2 (by decide)

end ClientChannel

namespace AcceptServer

/-- Phase of the accept-loop fiber of `AcceptServer::RunInIOThread`
(accept_server.cc lines 48-90): still in the accept loop; past the loop but
before the socket-closing pass; waiting on the `empty_list` condvar; or past
`done_.notify()`. -/
inductive Phase where
  | accepting
  | draining
  | waiting
  | notified
deriving DecidableEq, Repr

/-- State of an `AcceptServer` run: the accept fiber's phase, the number of
handlers linked in `clist` (each accepted handler stays linked while its
handler fiber runs and unlinks itself just before the fiber returns), whether
the cleanup pass of lines 77-79 has closed the live sockets, and whether a
`Wait()` call has returned. -/
structure ASState where
  phase : Phase
  live : Nat
  socketsClosed : Bool
  waitReturned : Bool
deriving DecidableEq, Repr

/-- Initial state: accept loop running, no connections yet. -/
def ASState.init : ASState :=
  { phase := Phase.accepting, live := 0, socketsClosed := false,
    waitReturned := false }

/-- One atomic step of the accept server's cooperative execution, translated
from `accept_server.cc`:

* `accept` — lines 61-68: a successful `AcceptFiber` links the handler into
  `clist` and spawns its handler fiber.
* `acceptError` — lines 58-60: `async_accept` failed, breaking the loop.
* `caughtExn` — lines 71-73: an exception from the loop is caught and logged;
  control continues at the same cleanup code.
* `closeAll` — lines 77-85: the cleanup pass closes every live connection's
  socket and starts waiting on the `empty_list` condvar.
* `handlerExit` — a handler fiber returns: it unlinks itself from `clist` and
  signals `empty_list`.
* `notifyDone` — lines 85-87: the condvar wait ends once `clist.empty()`, and
  `done_.notify()` runs.
* `waitReturn` — `AcceptServer::Wait` (lines 114-117) returns after
  `done_.wait()` observes the notification. -/
inductive ASStep : ASState → ASState → Prop where
  | accept {s : ASState} (h : s.phase = Phase.accepting) :
      ASStep s { s with live := s.live + 1 }
  | acceptError {s : ASState} (h : s.phase = Phase.accepting) :
      ASStep s { s with phase := Phase.draining }
  | caughtExn {s : ASState} (h : s.phase = Phase.accepting) :
      ASStep s { s with phase := Phase.draining }
  | closeAll {s : ASState} (h : s.phase = Phase.draining) :
      ASStep s { s with phase := Phase.waiting, socketsClosed := true }
  | handlerExit {s : ASState} (h : 1 ≤ s.live) :
      ASStep s { s with live := s.live - 1 }
  | notifyDone {s : ASState} (hp : s.phase = Phase.waiting)
      (hl : s.live = 0) : ASStep s { s with phase := Phase.notified }
  | waitReturn {s : ASState} (h : s.phase = Phase.notified) :
      ASStep s { s with waitReturned := true }

/-- States reachable from a freshly started accept server. -/
inductive ASReach : ASState → Prop where
  | init : ASReach ASState.init
  | step {s t : ASState} : ASReach s → ASStep s t → ASReach t

/-- The drain invariant: once past the cleanup pass the live sockets have been
closed; `done_` is notified only with an empty connection list; and a
returned `Wait()` implies the notification happened with every handler fiber
gone. -/
def ASInv (s : ASState) : Prop :=
  ((s.phase = Phase.waiting ∨ s.phase = Phase.notified) →
    s.socketsClosed = true) ∧
  (s.phase = Phase.notified → s.live = 0) ∧
  (s.waitReturned = true → s.phase = Phase.notified ∧ s.live = 0)

/-- Claim C5: after the accept loop exits (whether by accept error or by a
caught exception), the server closes every live connection's socket, waits
until the live-connections list is empty, and only then notifies `done_`;
hence `Wait()` returns only with every accepted handler fiber returned
(the invariant), and conversely the drain makes progress: with the list empty
the notification step is enabled, after which `Wait()` can return. -/
theorem claim5_drain_then_notify (s : ASState) (h : ASReach s) :
    ASInv s ∧
    (s.phase = Phase.waiting → s.live = 0 →
      ASStep s { s with phase := Phase.notified }) ∧
    (s.phase = Phase.notified →
      ASStep s { s with waitReturned := true }) := by
  refine ⟨?_, fun hp hl => ASStep.notifyDone hp hl, fun hp => ASStep.waitReturn hp⟩
  induction h with
  | init => simp [ASInv, ASState.init]
  | @step u t hr hst ih =>
    obtain ⟨h1, h2, h3⟩ := ih
    cases hst with
    | accept hp =>
      refine ⟨fun hw => h1 ?_, fun hn => ?_, fun hw => ?_⟩
      · exact hw
      · exact absurd hn (by simp [hp])
      · exact absurd ((h3 hw).1) (by simp [hp])
    | acceptError hp =>
      refine ⟨fun hw => ?_, fun hn => ?_, fun hw => ?_⟩
      · cases hw with
        | inl hx => exact absurd hx (by simp)
        | inr hx => exact absurd hx (by simp)
      · exact absurd hn (by simp)
      · exact absurd ((h3 hw).1) (by simp [hp])
    | caughtExn hp =>
      refine ⟨fun hw => ?_, fun hn => ?_, fun hw => ?_⟩
      · cases hw with
        | inl hx => exact absurd hx (by simp)
        | inr hx => exact absurd hx (by simp)
      · exact absurd hn (by simp)
      · exact absurd ((h3 hw).1) (by simp [hp])
    | closeAll hp =>
      refine ⟨fun _ => rfl, fun hn => ?_, fun hw => ?_⟩
      · exact absurd hn (by simp)
      · exact absurd ((h3 hw).1) (by simp [hp])
    | handlerExit hl =>
      refine ⟨h1, fun hn => ?_, fun hw => ?_⟩
      · exact absurd hl (by simp [h2 hn])
      · exact absurd hl (by simp [(h3 hw).2])
    | notifyDone hp hl =>
      refine ⟨fun _ => h1 (Or.inl hp), fun _ => hl, fun hw => ?_⟩
      exact absurd ((h3 hw).1) (by simp [hp])
    | waitReturn hp =>
      exact ⟨fun hw => h1 hw, fun hn => h2 hn, fun _ => ⟨hp, h2 hp⟩⟩

/-- Witness for claim C5: the invariant and enabled steps at the concrete
reachable state where the loop broke on an accept error, the cleanup closed
the sockets, and the notification fired with an empty list. -/
theorem claim5_drain_then_notify_witness :
    (ASInv { phase := Phase.notified, live := 0, socketsClosed := true,
             waitReturned := false } ∧
      ({ phase := Phase.notified, live := 0, socketsClosed := true,
         waitReturned := false : ASState }.phase = Phase.waiting →
        ({ phase := Phase.notified, live := 0, socketsClosed := true,
           waitReturned := false : ASState }.live = 0) →
        ASStep { phase := Phase.notified, live := 0, socketsClosed := true,
                 waitReturned := false }
          { phase := Phase.notified, live := 0, socketsClosed := true,
            waitReturned := false }) ∧
      ({ phase := Phase.notified, live := 0, socketsClosed := true,
         waitReturned := false : ASState }.phase = Phase.notified →
        ASStep { phase := Phase.notified, live := 0, socketsClosed := true,
                 waitReturned := false }
          { phase := Phase.notified, live := 0, socketsClosed := true,
            waitReturned := true })) :=
  claim5_drain_then_notify _
    (ASReach.step
      (ASReach.step
        (ASReach.step ASReach.init (ASStep.acceptError rfl))
        (ASStep.closeAll rfl))
      (ASStep.notifyDone rfl rfl))

/-- Translation of `AcceptServer::Wait` (accept_server.cc lines 114-117): the
call waits on `done_` only when `was_run_` is set, so it completes without
blocking exactly when `was_run_` is false or `done_` is already notified.
Returns true when the call completes without blocking. -/
def waitCompletesImmediately (wasRun doneNotified : Bool) : Bool :=
  if wasRun then doneNotified else true

/-- Translation of `AcceptServer::Run` (lines 106-112): it posts the accept
fiber and sets `was_run_`. -/
def runSetsWasRun (_wasRunBefore : Bool) : Bool := true

/-- Claim C10: if `AcceptServer::Run` was never called (`was_run_` still
false), `AcceptServer::Wait` returns immediately without waiting on `done_`,
whatever the state of `done_` — so destroying a constructed-but-never-run
server does not block — while `Run` sets `was_run_`. -/
theorem claim10_wait_without_run (doneNotified wasRunBefore : Bool) :
    waitCompletesImmediately false doneNotified = true ∧
    runSetsWasRun wasRunBefore = true := by
  exact ⟨rfl, rfl⟩

end AcceptServer

namespace FiberQueueTP

/-- How a worker thread's `WorkerFunction` loop ends: `exited` when
`input_.pop` returns `channel_op_status::closed`; `fatalAbort` when a closure
threw, which `LOG(FATAL)` turns into a process abort; `blocked` when the pop
would suspend on an open, empty channel. -/
inductive WOut where
  | exited
  | fatalAbort
  | blocked
deriving DecidableEq, Repr

/-- Translation of `FiberQueueThreadPool::WorkerFunction`
(fiberqueue_threadpool.cc lines 47-61) over the sequence of closures this
worker pops, each abstracted by whether invoking it throws, together with the
channel-closed flag: pop drains remaining items before reporting closed;
each popped closure is invoked inside the try block, and a throw is fatal. -/
def workerLoop : List Bool → Bool → WOut
  | [], closed => if closed then WOut.exited else WOut.blocked
  | c :: rest, closed => if c then WOut.fatalAbort else workerLoop rest closed

/-- The closures the worker actually invokes: every popped closure up to and
including the first throwing one. -/
def workerInvoked : List Bool → List Bool
  | [] => []
  | c :: rest => if c then [c] else c :: workerInvoked rest

/-- State of a `FiberQueueThreadPool`: the closures still queued in `input_`,
whether `input_` is closed, and the worker threads still joinable. -/
structure PoolState where
  items : List Bool
  closed : Bool
  workers : Nat
deriving DecidableEq, Repr

/-- Translation of `FiberQueueThreadPool::Shutdown` (lines 36-44): close the
input channel, join every worker — each drains the remaining items via its
`WorkerFunction` loop against the now-closed channel — and clear the worker
list.  Returns the pool state after shutdown together with the joined
worker's loop outcome. -/
def shutdown (p : PoolState) : PoolState × WOut :=
  ({ items := [], closed := true, workers := 0 }, workerLoop p.items true)

theorem workerLoop_closed_not_blocked (l : List Bool) :
    workerLoop l true ≠ WOut.blocked := by
  induction l with
  | nil => simp [workerLoop]
  | cons c rest ih =>
    by_cases hc : c = true
    · simp [workerLoop, hc]
    · simp [workerLoop, Bool.eq_false_iff.mpr hc] at *
      exact ih

theorem workerLoop_all_ok (l : List Bool) (h : ∀ c ∈ l, c = false) :
    workerLoop l true = WOut.exited ∧ workerInvoked l = l := by
  induction l with
  | nil => exact ⟨rfl, rfl⟩
  | cons c rest ih =>
    have hc : c = false := h c (by simp)
    have hrest : ∀ c ∈ rest, c = false := fun x hx => h x (by simp [hx])
    obtain ⟨h1, h2⟩ := ih hrest
    subst hc
    simp [workerLoop, workerInvoked, h1, h2]

theorem workerLoop_throw (l : List Bool) (h : ∃ c ∈ l, c = true) :
    workerLoop l true = WOut.fatalAbort := by
  induction l with
  | nil => simp at h
  | cons c rest ih =>
    by_cases hc : c = true
    · simp [workerLoop, hc]
    · have hb : c = false := Bool.eq_false_iff.mpr hc
      subst hb
      simp [workerLoop]
      apply ih
      obtain ⟨x, hx, ht⟩ := h
      cases hx with
      | head => exact absurd ht (by simp)
      | tail _ hm => exact ⟨x, hm, ht⟩

/-- Claim C6: `FiberQueueThreadPool::Shutdown` closes the input channel and
joins all worker threads (the worker list ends empty); after close, each
worker pops and runs the remaining closures in the channel and exits when pop
returns closed (never blocking); and an exception thrown by any closure in a
worker is fatal — logged and aborting the process — rather than being
returned to the caller (the loop outcome is only ever `exited` or
`fatalAbort`). -/
theorem claim6_shutdown_drain_fatal (p : PoolState) :
    (shutdown p).1.closed = true ∧
    (shutdown p).1.workers = 0 ∧
    (shutdown p).2 ≠ WOut.blocked ∧
    ((∀ c ∈ p.items, c = false) →
      (shutdown p).2 = WOut.exited ∧ workerInvoked p.items = p.items) ∧
    ((∃ c ∈ p.items, c = true) → (shutdown p).2 = WOut.fatalAbort) := by
  exact ⟨rfl, rfl, workerLoop_closed_not_blocked p.items,
    fun h => workerLoop_all_ok p.items h,
    fun h => workerLoop_throw p.items h⟩

/-- Witness for claim C6: a concrete pool with one clean and one throwing
closure aborts fatally after shutdown; a pool with only clean closures drains
them all and exits. -/
theorem claim6_shutdown_drain_fatal_witness :
    (shutdown { items := [false, true], closed := false, workers := 3 }).2 =
        WOut.fatalAbort ∧
    ((shutdown { items := [false, false], closed := false, workers := 2 }).2 =
        WOut.exited ∧
      workerInvoked [false, false] = [false, false]) :=
  ⟨(claim6_shutdown_drain_fatal
        { items := [false, true], closed := false, workers := 3 }).2.2.2.2
      ⟨true, by simp, rfl⟩,
    (claim6_shutdown_drain_fatal
        { items := [false, false], closed := false, workers := 2 }).2.2.2.1
      (by simp)⟩

end FiberQueueTP

namespace GcsRead

/-- Persistent state of a `GcsReadFile` (gcs_read_file.cc lines 67-73): the
current read offset `offs_`, the recorded `size_`, and whether
`https_handle_` currently holds a pooled connection.  The response parser's
body position coincides with `offs_` at every call boundary, so it is not a
separate field. -/
structure RFState where
  offs : Nat
  size : Nat
  hasHandle : Bool
deriving DecidableEq, Repr

/-- The HTTP request produced by `GcsReadFile::Open` (lines 80-82): a header
`Range: bytes=offs-` is attached exactly when `offs_ != 0`. -/
structure OpenReq where
  rangeFrom : Option Nat
deriving DecidableEq, Repr

def mkOpenReq (offs : Nat) : OpenReq :=
  { rangeFrom := if offs = 0 then none else some offs }

/-- The first object byte the request asks the server to serve (absent Range
header means the whole object, i.e. byte 0). -/
def OpenReq.startsAt (r : OpenReq) : Nat := r.rangeFrom.getD 0

/-- Reader state after a successful `GcsReadFile::Open` (lines 77-94) against
object `obj` at offset `offs`: a fresh parser positioned at `offs`, and
`size_` set from the response's `Content-Length` — the bytes remaining from
`offs`, since the request ranges from there.  The model assumes the server
advertises a `Content-Length` (the source leaves the chunked/absent case
unspecified). -/
def openState (obj : List Nat) (offs : Nat) : RFState :=
  { offs := offs, size := obj.length - offs, hasHandle := true }

/-- Error kinds a `Read` surfaces as a `Status`: a failed reopen (`Open`
propagated through `RETURN_IF_ERROR`), or a non-resumable transport code
mapped by `detail::ToStatus`. -/
inductive GErr where
  | openFail
  | trans (e : Nat)
deriving DecidableEq, Repr

/-- Outcome of one `https_handle_->Read(parser())` call in the loop of
`GcsReadFile::Read` (line 118), abstracted over the transport.  The parser
commits bytes of the object into the supplied body window and the call

* `ok k` — returns success or `http::error::need_buffer` after committing
  `k` bytes (cut to the window size and the remaining body);
* `partMsg k b` — returns `http::error::partial_message` after committing
  `k` bytes; `b` is whether the subsequent reopen (`Open`) succeeds;
* `sslTrunc k b` — returns `ssl::error::stream_truncated`; the `k` bytes it
  may have written are not committed to the reader (lines 144-151 reopen
  without advancing `offs_` or `read_sofar`);
* `fail e` — returns another error code `e`. -/
inductive NetEv where
  | ok (k : Nat)
  | partMsg (k : Nat) (reopenOk : Bool)
  | sslTrunc (k : Nat) (reopenOk : Bool)
  | fail (e : Nat)

/-- Result of `GcsReadFile::Read`, always carrying the reader state after the
call: the `CHECK(!range.empty())` abort, the InvalidArgument status of a
non-sequential offset, the EOF return of 0, a successful return of `n` bytes
whose data is `data`, a surfaced error status, or an exhausted transport
oracle (model artifact). -/
inductive ReadRes where
  | checkFail (st : RFState)
  | invalidArg (st : RFState)
  | eofZero (st : RFState)
  | okRead (n : Nat) (data : List Nat) (st : RFState)
  | errStat (e : GErr) (st : RFState)
  | fuelOut (st : RFState)
deriving DecidableEq, Repr

/-- Translation of the loop of `GcsReadFile::Read` (lines 109-160) against
object `obj` and a buffer of size `cap`, driven by the transport oracle:
`rs` is `read_sofar`, `acc` the object data occupying the buffer's first `rs`
bytes.  On success the call returns `http_read + read_sofar` and advances
`offs_` (lines 121-131); `partial_message` advances `offs_` and `read_sofar`
by the committed bytes and is treated as a truncation (lines 133-142); a
truncation resets the handle and reopens from the current `offs_`, continuing
to fill the same buffer (lines 144-151); any other error is surfaced
(lines 152-157). -/
def readLoop (obj : List Nat) (cap : Nat) :
    List NetEv → Nat → List Nat → RFState → ReadRes
  | [], rs, acc, st =>
      if cap ≤ rs then ReadRes.okRead rs acc st else ReadRes.fuelOut st
  | ev :: rest, rs, acc, st =>
      if cap ≤ rs then ReadRes.okRead rs acc st
      else
        match ev with
        | NetEv.ok k =>
            let chunk := (obj.drop st.offs).take (min k (cap - rs))
            ReadRes.okRead (rs + chunk.length) (acc ++ chunk)
              { st with offs := st.offs + chunk.length }
        | NetEv.partMsg k reopenOk =>
            let chunk := (obj.drop st.offs).take (min k (cap - rs))
            if reopenOk then
              readLoop obj cap rest (rs + chunk.length) (acc ++ chunk)
                (openState obj (st.offs + chunk.length))
            else
              ReadRes.errStat GErr.openFail
                { st with offs := st.offs + chunk.length, hasHandle := false }
        | NetEv.sslTrunc _ reopenOk =>
            if reopenOk then
              readLoop obj cap rest rs acc (openState obj st.offs)
            else ReadRes.errStat GErr.openFail { st with hasHandle := false }
        | NetEv.fail e => ReadRes.errStat (GErr.trans e) st

/-- Translation of `GcsReadFile::Read` (lines 97-161): the
`CHECK(!range.empty())` of line 98, the sequential-offset test of
lines 100-102, the `parser()->is_done()` EOF return of lines 105-107 — the
content-length-framed parser is done exactly when `offs_` has reached the
object length — and then the read loop. -/
def gcsRead (obj : List Nat) (st : RFState) (offset cap : Nat)
    (evs : List NetEv) : ReadRes :=
  if cap = 0 then ReadRes.checkFail st
  else if offset ≠ st.offs then ReadRes.invalidArg st
  else if obj.length ≤ st.offs then ReadRes.eofZero st
  else readLoop obj cap evs 0 [] st

theorem take_self_length_take (l : List Nat) (m : Nat) :
    l.take ((l.take m).length) = l.take m := by
  rw [List.take_eq_take]
  simp [List.length_take]

theorem chunk_extend (L : List Nat) (rs m : Nat) :
    L.take rs ++ (L.drop rs).take m =
      L.take (rs + ((L.drop rs).take m).length) := by
  rw [List.take_add, take_self_length_take]

theorem drop_add_offs (obj : List Nat) (off0 rs : Nat) :
    obj.drop (off0 + rs) = (obj.drop off0).drop rs := by
  rw [List.drop_drop]

theorem readLoop_no_loss (obj : List Nat) (cap : Nat) (evs : List NetEv) :
    ∀ (rs : Nat) (acc : List Nat) (st : RFState) (off0 : Nat),
      st.offs = off0 + rs → st.offs ≤ obj.length →
      acc = (obj.drop off0).take rs →
      ∀ (n : Nat) (data : List Nat) (st' : RFState),
        readLoop obj cap evs rs acc st = ReadRes.okRead n data st' →
        data = (obj.drop off0).take n ∧ st'.offs = off0 + n ∧ rs ≤ n := by
  induction evs with
  | nil =>
    intro rs acc st off0 h1 h2 h3 n data st' heq
    simp only [readLoop] at heq
    split at heq
    · simp only [ReadRes.okRead.injEq] at heq
      obtain ⟨hn, hd, hs⟩ := heq
      subst hn; subst hd; subst hs
      exact ⟨h3, h1, Nat.le_refl rs⟩
    · exact absurd heq (by simp)
  | cons ev rest ih =>
    intro rs acc st off0 h1 h2 h3 n data st' heq
    have hLdrop : obj.drop st.offs = (obj.drop off0).drop rs := by
      rw [h1, drop_add_offs]
    cases ev with
    | ok k =>
      simp only [readLoop] at heq
      split at heq
      · simp only [ReadRes.okRead.injEq] at heq
        obtain ⟨hn, hd, hs⟩ := heq
        subst hn; subst hd; subst hs
        exact ⟨h3, h1, Nat.le_refl rs⟩
      · simp only [ReadRes.okRead.injEq] at heq
        obtain ⟨hn, hd, hs⟩ := heq
        subst hn; subst hd; subst hs
        refine ⟨?_, ?_, Nat.le_add_right rs _⟩
        · rw [h3, hLdrop, chunk_extend]
        · show st.offs + _ = off0 + (rs + _)
          omega
    | partMsg k reopenOk =>
      simp only [readLoop] at heq
      split at heq
      · simp only [ReadRes.okRead.injEq] at heq
        obtain ⟨hn, hd, hs⟩ := heq
        subst hn; subst hd; subst hs
        exact ⟨h3, h1, Nat.le_refl rs⟩
      · split at heq
        · -- reopen succeeded, the loop continues from the advanced offset
          have hlen : ((obj.drop st.offs).take (min k (cap - rs))).length ≤
              obj.length - st.offs := by
            simp [List.length_take]
          obtain ⟨hd, hs, hle⟩ := ih (rs + ((obj.drop st.offs).take
              (min k (cap - rs))).length)
            (acc ++ (obj.drop st.offs).take (min k (cap - rs)))
            (openState obj (st.offs + ((obj.drop st.offs).take
              (min k (cap - rs))).length)) off0
            (by simp [openState]; omega)
            (by simp [openState]; omega)
            (by rw [h3, hLdrop, chunk_extend]) n data st' heq
          exact ⟨hd, hs, by omega⟩
        · exact absurd heq (by simp)
    | sslTrunc k reopenOk =>
      simp only [readLoop] at heq
      split at heq
      · simp only [ReadRes.okRead.injEq] at heq
        obtain ⟨hn, hd, hs⟩ := heq
        subst hn; subst hd; subst hs
        exact ⟨h3, h1, Nat.le_refl rs⟩
      · split at heq
        · exact ih rs acc (openState obj st.offs) off0
            (by simp [openState, h1]) (by simp [openState]; omega) h3
            n data st' heq
        · exact absurd heq (by simp)
    | fail e =>
      simp only [readLoop] at heq
      split at heq
      · simp only [ReadRes.okRead.injEq] at heq
        obtain ⟨hn, hd, hs⟩ := heq
        subst hn; subst hd; subst hs
        exact ⟨h3, h1, Nat.le_refl rs⟩
      · exact absurd heq (by simp)

/-- Claim C2: for every reader state and every call `Read(offset, buffer)`
with a nonempty buffer (the `CHECK` of line 98 is the asserted precondition)
and `offset` different from the reader's current offset, `Read` returns
InvalidArgument and the reader's state — current offset, size and HTTPS
handle — is unchanged (the result carries the input state itself). -/
theorem claim2_nonsequential_read (obj : List Nat) (st : RFState)
    (offset cap : Nat) (evs : List NetEv) (hcap : 0 < cap)
    (hoff : offset ≠ st.offs) :
    gcsRead obj st offset cap evs = ReadRes.invalidArg st := by
  have hc0 : ¬ cap = 0 := by omega
  simp [gcsRead, hc0, hoff]

/-- Witness for claim C2: a concrete non-sequential read. -/
theorem claim2_nonsequential_read_witness :
    gcsRead [5, 6] { offs := 0, size := 2, hasHandle := true } 1 4 [] =
      ReadRes.invalidArg { offs := 0, size := 2, hasHandle := true } :=
  claim2_nonsequential_read [5, 6] _ 1 4 [] (by decide) (by decide)

/-- Claim C3: when a read hits `partial_message` or `stream_truncated`, the
reader reopens with a request ranging from its current offset and continues
filling the same buffer, having advanced its offset by the bytes already
committed, so that whatever truncations were injected, a successful `Read`
returns exactly the next `n` object bytes and advances the offset by `n` —
no byte lost or duplicated, so sequential reads concatenate to the object
bytes; the reopen request starts at the reader's offset; and any other error
is surfaced as a Status to the caller. -/
theorem claim3_resume_no_loss :
    (∀ (obj : List Nat) (st : RFState) (cap : Nat) (evs : List NetEv)
        (n : Nat) (data : List Nat) (st' : RFState),
      gcsRead obj st st.offs cap evs = ReadRes.okRead n data st' →
      data = (obj.drop st.offs).take n ∧ st'.offs = st.offs + n) ∧
    (∀ offs : Nat, (mkOpenReq offs).startsAt = offs) ∧
    (∀ (obj : List Nat) (cap : Nat) (e : Nat) (rest : List NetEv)
        (rs : Nat) (acc : List Nat) (st : RFState), rs < cap →
      readLoop obj cap (NetEv.fail e :: rest) rs acc st =
        ReadRes.errStat (GErr.trans e) st) := by
  refine ⟨?_, ?_, ?_⟩
  · intro obj st cap evs n data st' heq
    unfold gcsRead at heq
    split at heq
    · exact absurd heq (by simp)
    · split at heq
      · exact absurd heq (by simp)
      · split at heq
        · exact absurd heq (by simp)
        next hnotEof =>
          obtain ⟨hd, hs, _⟩ := readLoop_no_loss obj cap evs 0 [] st st.offs
            (by omega) (by omega) (by simp) n data st' heq
          exact ⟨hd, hs⟩
  · intro offs
    by_cases h0 : offs = 0
    · simp [mkOpenReq, OpenReq.startsAt, h0]
    · simp [mkOpenReq, OpenReq.startsAt, h0]
  · intro obj cap e rest rs acc st hlt
    have hno : ¬ cap ≤ rs := by omega
    simp [readLoop, hno]

/-- Witness for claim C3: an eight-byte object read through one injected
mid-stream truncation (three bytes, then `partial_message` and a successful
reopen, then the remaining five bytes) returns exactly the object bytes and
advances the offset to 8. -/
theorem claim3_resume_no_loss_witness :
    [10, 20, 30, 40, 50, 60, 70, 80] =
      (([10, 20, 30, 40, 50, 60, 70, 80] : List Nat).drop 0).take 8 ∧
    ({ offs := 8, size := 5, hasHandle := true : RFState }).offs = 0 + 8 :=
  claim3_resume_no_loss.1 [10, 20, 30, 40, 50, 60, 70, 80]
    { offs := 0, size := 8, hasHandle := true } 8
    [NetEv.partMsg 3 true, NetEv.ok 8] 8 [10, 20, 30, 40, 50, 60, 70, 80]
    { offs := 8, size := 5, hasHandle := true } (by decide)

/-- Driver for the round-trip scenario: a sequence of sequential reads, each
with a buffer of capacity `c` and a clean transport (one successful network
read filling as much of the buffer as the remaining body allows), starting
from reader state `st`; returns the concatenation of the returned data and
the final reader state.  The driver stops at EOF (or any non-ok result). -/
def seqReads (obj : List Nat) : Nat → RFState → Nat → List Nat × RFState
  | 0, st, _ => ([], st)
  | fuel + 1, st, c =>
    match gcsRead obj st st.offs c [NetEv.ok c] with
    | ReadRes.okRead _ data st' =>
        let r := seqReads obj fuel st' c
        (data ++ r.1, r.2)
    | _ => ([], st)

theorem gcsRead_one_ok (obj : List Nat) (st : RFState) (c : Nat)
    (hc0 : ¬ c = 0) (hlt : st.offs < obj.length) :
    gcsRead obj st st.offs c [NetEv.ok c] =
      ReadRes.okRead (((obj.drop st.offs).take c).length)
        ((obj.drop st.offs).take c)
        { st with offs := st.offs + ((obj.drop st.offs).take c).length } := by
  simp only [gcsRead, readLoop]
  rw [if_neg hc0, if_neg (by simp), if_neg (by omega), if_neg (by omega)]
  simp

theorem seqReads_drains (obj : List Nat) (c : Nat) (hc : 1 ≤ c) :
    ∀ (fuel : Nat) (st : RFState), st.offs ≤ obj.length →
      obj.length - st.offs ≤ fuel →
      (seqReads obj fuel st c).1 = obj.drop st.offs ∧
      (seqReads obj fuel st c).2.offs = obj.length := by
  intro fuel
  induction fuel with
  | zero =>
    intro st h1 h2
    have hoffs : st.offs = obj.length := by omega
    exact ⟨by simp [seqReads, hoffs, List.drop_length],
      by simp [seqReads, hoffs]⟩
  | succ fuel ih =>
    intro st h1 h2
    have hc0 : ¬ c = 0 := by omega
    by_cases hend : obj.length ≤ st.offs
    · have hoffs : st.offs = obj.length := by omega
      have hread : gcsRead obj st st.offs c [NetEv.ok c] =
          ReadRes.eofZero st := by
        simp [gcsRead, hc0, hend]
      constructor
      · simp only [seqReads, hread]
        rw [hoffs, List.drop_length]
      · simp only [seqReads, hread]
        exact hoffs
    · have hlt : st.offs < obj.length := by omega
      have hread := gcsRead_one_ok obj st c hc0 hlt
      have hmle : ((obj.drop st.offs).take c).length ≤
          obj.length - st.offs := by
        simp [List.length_take]
      have hm1 : 1 ≤ ((obj.drop st.offs).take c).length := by
        simp only [List.length_take, List.length_drop]
        omega
      obtain ⟨hr1, hr2⟩ := ih
        { st with offs := st.offs + ((obj.drop st.offs).take c).length }
        (by simp only []; omega) (by simp only []; omega)
      constructor
      · simp only [seqReads, hread]
        rw [hr1]
        show (obj.drop st.offs).take c ++
          obj.drop (st.offs + ((obj.drop st.offs).take c).length) =
            obj.drop st.offs
        rw [drop_add_offs]
        conv_rhs =>
          rw [← List.take_append_drop (((obj.drop st.offs).take c).length)
            (obj.drop st.offs)]
        rw [take_self_length_take]
      · simp only [seqReads, hread]
        exact hr2

/-- Claim C8: for every reader whose response parser reports `is_done` — the
offset has consumed the whole content-length-framed body — a sequential
`Read(current_offset, buffer)` with a nonempty buffer returns 0 (EOF) for
every transport oracle, i.e. without performing any network read, and the
carried state is unchanged; consequently for an object of N bytes,
contiguous sequential reads (clean transport, N reads suffice) return all
N bytes and then 0. -/
theorem claim8_eof_and_roundtrip :
    (∀ (obj : List Nat) (st : RFState) (cap : Nat) (evs : List NetEv),
      0 < cap → obj.length ≤ st.offs →
      gcsRead obj st st.offs cap evs = ReadRes.eofZero st) ∧
    (∀ (obj : List Nat) (c fuel : Nat), 1 ≤ c → obj.length ≤ fuel →
      (seqReads obj fuel (openState obj 0) c).1 = obj ∧
      gcsRead obj (seqReads obj fuel (openState obj 0) c).2
          ((seqReads obj fuel (openState obj 0) c).2).offs c [] =
        ReadRes.eofZero (seqReads obj fuel (openState obj 0) c).2) := by
  have heof : ∀ (obj : List Nat) (st : RFState) (cap : Nat)
      (evs : List NetEv), 0 < cap → obj.length ≤ st.offs →
      gcsRead obj st st.offs cap evs = ReadRes.eofZero st := by
    intro obj st cap evs hcap hdone
    have hc0 : ¬ cap = 0 := by omega
    simp [gcsRead, hc0, hdone]
  refine ⟨heof, ?_⟩
  intro obj c fuel hc hfuel
  have h0 : (openState obj 0).offs ≤ obj.length := by
    simp [openState]
  have h2 : obj.length - (openState obj 0).offs ≤ fuel := by
    simp only [openState]
    omega
  obtain ⟨hd, ho⟩ := seqReads_drains obj c hc fuel (openState obj 0) h0 h2
  refine ⟨?_, ?_⟩
  · rw [hd]
    simp [openState]
  · exact heof obj _ c [] (by omega) (by omega)

/-- Witness for claim C8: a five-byte object read through two-byte buffers
drains to exactly the object bytes, and the next read returns EOF; a reader
positioned at the end returns EOF directly. -/
theorem claim8_eof_and_roundtrip_witness :
    (gcsRead [1, 2, 3] { offs := 3, size := 0, hasHandle := true } 3 2
        [NetEv.fail 7] =
      ReadRes.eofZero { offs := 3, size := 0, hasHandle := true }) ∧
    ((seqReads [1, 2, 3, 4, 5] 5 (openState [1, 2, 3, 4, 5] 0) 2).1 =
        [1, 2, 3, 4, 5] ∧
      gcsRead [1, 2, 3, 4, 5]
          (seqReads [1, 2, 3, 4, 5] 5 (openState [1, 2, 3, 4, 5] 0) 2).2
          ((seqReads [1, 2, 3, 4, 5] 5 (openState [1, 2, 3, 4, 5] 0) 2).2).offs
          2 [] =
        ReadRes.eofZero
          (seqReads [1, 2, 3, 4, 5] 5 (openState [1, 2, 3, 4, 5] 0) 2).2) :=
  ⟨claim8_eof_and_roundtrip.1 [1, 2, 3]
      { offs := 3, size := 0, hasHandle := true } 2 [NetEv.fail 7]
      (by decide) (by decide),
    claim8_eof_and_roundtrip.2 [1, 2, 3, 4, 5] 2 5 (by decide) (by decide)⟩

end GcsRead
